import Mathlib

/-!
# Verification of the omnidata incremental CSV parsing engine

A shallow embedding of the TypeScript `CSVParser` class (delimiter/quote/escape
state machine, field/row assembly, header resolution, diagnostics, streaming
`write`/`end` sessions and the one-shot `parse` entry point).

Modelling conventions:
* JS strings used as scan buffers become `List Char`; accumulated field text
  stays `String` (appended with `String.push`, matching `+=` of one character).
* The JS lookahead `this.buffer[this.bufferIndex + 1]`, which yields
  `undefined` past the end, becomes `List.get?` returning `Option Char`.
* The configured `delimiter`, `quote` and `escape` options are single
  characters (their documented shape; the engine compares them against
  one-character slices of the input).
* A JS object built by indexed assignment (`row[headers[i]] = ...`) becomes an
  insertion-ordered association list where assigning to an existing key
  updates the value in place and assigning a fresh key appends — exactly the
  enumeration-order semantics of JS string-keyed objects.
* Callback notifications (`onRow`, `onHeaders`, `onEnd`) are recorded in
  observer fields of the state (`emittedRows`, `emittedHeaders`, `endEvent`);
  a notification is recorded exactly where the source invokes the callback.
  Both `parse` and `parseStream` begin by resetting the instance and attach a
  fresh observer, so `reset` also clears the observer fields.
-/

namespace Omnidata

/-- A structural diagnostic `{ line, column, message }`. -/
structure CSVError where
  line : Nat
  column : Nat
  message : String
deriving DecidableEq, Repr

/-- The `headers` option: `false` (no header), `true` (first row becomes the
header), or an explicit array of names. -/
inductive HeadersOption where
  | none
  | firstRow
  | explicitList (names : List String)
deriving DecidableEq, Repr

/-- Resolved parser configuration (constructor defaults of `CSVParser`).
`encoding` and `chunkSize` are consumed only by the external I/O drivers and
never read by the engine, so they are omitted. -/
structure CSVParseOptions where
  delimiter : Char := ','
  quote : Char := '"'
  escape : Char := '"'
  skipEmptyLines : Bool := true
  headers : HeadersOption := HeadersOption.none
deriving DecidableEq, Repr

/-- An emitted row: a raw field array when no header is resolved, or a
name-keyed mapping (insertion-ordered) when one is. -/
inductive RowValue where
  | arr (fields : List String)
  | obj (pairs : List (String × String))
deriving DecidableEq, Repr

/-- The full mutable state of a `CSVParser` instance, plus observer fields
recording the notifications delivered during the current session. -/
structure CSVParserState where
  options : CSVParseOptions
  buffer : List Char
  currentLine : Nat
  currentColumn : Nat
  inQuotes : Bool
  currentField : String
  currentRow : List String
  headers : Option (List String)
  errors : List CSVError
  rowIndex : Nat
  bufferIndex : Nat
  emittedRows : List (RowValue × Nat)
  emittedHeaders : List (List String)
  endEvent : Option (Nat × List CSVError)
deriving DecidableEq, Repr

/-- The state of a freshly constructed `CSVParser` with the given options. -/
def initState (options : CSVParseOptions) : CSVParserState :=
  { options := options
    buffer := []
    currentLine := 1
    currentColumn := 1
    inQuotes := false
    currentField := ""
    currentRow := []
    headers := Option.none
    errors := []
    rowIndex := 0
    bufferIndex := 0
    emittedRows := []
    emittedHeaders := []
    endEvent := Option.none }

/-- `reset()`: restores every mutable field to its constructed value (the
source sets each field back to the constructor initial; the observer fields
are cleared because both session entry points attach a fresh observer right
after resetting). -/
def reset (st : CSVParserState) : CSVParserState := initState st.options

/-- `addError(message)`: push a diagnostic at the current position. -/
def addError (msg : String) (st : CSVParserState) : CSVParserState :=
  { st with errors := st.errors ++ [⟨st.currentLine, st.currentColumn, msg⟩] }

/-- Assignment `o[k] = v` on a JS string-keyed object viewed as an
insertion-ordered association list: an existing key keeps its position and
gets the new value; a fresh key is appended. -/
def objUpsert (k v : String) : List (String × String) → List (String × String)
  | [] => [(k, v)]
  | (k1, v1) :: rest =>
      if k1 = k then (k1, v) :: rest else (k1, v1) :: objUpsert k v rest

/-- The loop `for i in 0..headers.length: row[headers[i]] = currentRow[i] || ""`
starting at index `i` with accumulator `acc`. -/
def rowToObjFrom (row : List String) : List String → Nat →
    List (String × String) → List (String × String)
  | [], _, acc => acc
  | name :: names, i, acc =>
      rowToObjFrom row names (i + 1) (objUpsert name (row.getD i "") acc)

/-- Conversion of a raw row to the name-keyed mapping view. -/
def rowToObj (headers row : List String) : List (String × String) :=
  rowToObjFrom row headers 0 []

/-- `resetRow()`: clear the row/field accumulators, advance `line`, reset
`column` to 1. -/
def resetRow (st : CSVParserState) : CSVParserState :=
  { st with currentRow := []
            currentField := ""
            currentLine := st.currentLine + 1
            currentColumn := 1 }

/-- `endRow(streamOptions)`: push the pending field, apply the empty-line
policy, resolve headers, emit the data row, then `resetRow`. -/
def endRow (st : CSVParserState) : CSVParserState :=
  let st := { st with currentRow := st.currentRow ++ [st.currentField] }
  if st.options.skipEmptyLines = true ∧ st.currentRow.length = 1 ∧
      st.currentRow.getD 0 "" = "" then
    resetRow st
  else
    match st.options.headers, st.headers with
    | HeadersOption.firstRow, Option.none =>
        let hs := st.currentRow
        let st := { st with headers := some hs
                            emittedHeaders := st.emittedHeaders ++ [hs] }
        resetRow st
    | HeadersOption.explicitList names, Option.none =>
        let st := { st with headers := some names
                            emittedHeaders := st.emittedHeaders ++ [names] }
        let row : RowValue :=
          match st.headers with
          | some hs => RowValue.obj (rowToObj hs st.currentRow)
          | Option.none => RowValue.arr st.currentRow
        let st := { st with emittedRows := st.emittedRows ++ [(row, st.rowIndex)]
                            rowIndex := st.rowIndex + 1 }
        resetRow st
    | _, _ =>
        let row : RowValue :=
          match st.headers with
          | some hs => RowValue.obj (rowToObj hs st.currentRow)
          | Option.none => RowValue.arr st.currentRow
        let st := { st with emittedRows := st.emittedRows ++ [(row, st.rowIndex)]
                            rowIndex := st.rowIndex + 1 }
        resetRow st

/-- `processCharacter(char)`: one step of the lexical state machine.  The
escaped-quote and `\r\n` lookaheads read `buffer[bufferIndex + 1]`, which is
`none` at the end of the current buffer. -/
def processCharacter (c : Char) (st : CSVParserState) : CSVParserState :=
  let delimiter := st.options.delimiter
  let quote := st.options.quote
  let escape := st.options.escape
  if st.inQuotes then
    if c = escape ∧ st.buffer.get? (st.bufferIndex + 1) = some quote then
      { st with currentField := st.currentField.push quote
                currentColumn := st.currentColumn + 2
                bufferIndex := st.bufferIndex + 1 }
    else if c = quote then
      { st with inQuotes := false, currentColumn := st.currentColumn + 1 }
    else
      { st with currentField := st.currentField.push c
                currentColumn := st.currentColumn + 1 }
  else
    if c = quote then
      if st.currentField.length > 0 then
        let st := addError "Unexpected quote character" st
        { st with currentField := st.currentField.push c
                  currentColumn := st.currentColumn + 1 }
      else
        { st with inQuotes := true, currentColumn := st.currentColumn + 1 }
    else if c = delimiter then
      { st with currentRow := st.currentRow ++ [st.currentField]
                currentField := ""
                currentColumn := st.currentColumn + 1 }
    else if c = '\n' ∨ c = '\r' then
      let st :=
        if c = '\r' ∧ st.buffer.get? (st.bufferIndex + 1) = some '\n' then
          { st with bufferIndex := st.bufferIndex + 1 }
        else st
      endRow st
    else
      { st with currentField := st.currentField.push c
                currentColumn := st.currentColumn + 1 }

/-- The `while (this.bufferIndex < this.buffer.length)` loop of
`processChunk`, fuelled.  Each iteration increases `bufferIndex` by at least
one and leaves `buffer` unchanged, so starting from `bufferIndex = 0` the JS
loop performs at most `buffer.length` iterations: with that much fuel the
fuelled loop and the JS loop coincide. -/
def processLoop : Nat → CSVParserState → CSVParserState
  | 0, st => st
  | fuel + 1, st =>
      if h : st.bufferIndex < st.buffer.length then
        let c := st.buffer.get ⟨st.bufferIndex, h⟩
        let st := processCharacter c st
        processLoop fuel { st with bufferIndex := st.bufferIndex + 1 }
      else st

/-- `processChunk(chunk)`: append the chunk to the buffer, scan the whole
buffer, then clear it (so lookahead never crosses a chunk boundary). -/
def processChunk (chunk : List Char) (st : CSVParserState) : CSVParserState :=
  let st := { st with buffer := st.buffer ++ chunk, bufferIndex := 0 }
  let st := processLoop st.buffer.length st
  { st with buffer := [], bufferIndex := 0 }

/-- `finalize()`: flush a pending field or non-empty row (the source guard is
`if (this.currentField || this.currentRow.length > 0)`, and an empty string
is falsy), report an unclosed quote, and deliver the end notification. -/
def finalize (st : CSVParserState) : CSVParserState :=
  let st := if st.currentField ≠ "" ∨ st.currentRow.length > 0 then endRow st else st
  let st := if st.inQuotes = true then addError "Unclosed quoted field" st else st
  { st with endEvent := some (st.rowIndex, st.errors) }

/-- The value returned by `parse`. -/
structure CSVParseResult where
  headers : Option (List String)
  rows : List RowValue
  errors : List CSVError
deriving DecidableEq, Repr

/-- `parse(input)`: reset the instance, process the whole input as one chunk,
finalize, and collect the emitted rows.  Returns the result together with the
instance state left behind (the class mutates `this`). -/
def parse (st : CSVParserState) (input : String) :
    CSVParseResult × CSVParserState :=
  let st := reset st
  let st := processChunk input.data st
  let st := finalize st
  ({ headers := st.headers, rows := st.emittedRows.map Prod.fst,
     errors := st.errors }, st)

/-- A full streaming session on a fresh parser: `parseStream` resets the
instance, each `write(chunk)` runs `processChunk`, and `end()` runs
`finalize` (the surrounding `try`/`catch` is dead in this model: no step
throws). -/
def streamRun (options : CSVParseOptions) (chunks : List (List Char)) :
    CSVParserState :=
  finalize (chunks.foldl (fun s c => processChunk c s) (reset (initState options)))

/-- The constructor defaults: `delimiter=','`, `quote=escape='"'`,
`skipEmptyLines=true`, no headers. -/
def defaultOptions : CSVParseOptions := {}

/-- A concrete mid-session state: inside a quoted field, with the two
characters `""` still ahead in the scan buffer (the character about to be
processed at index 0 and its successor at index 1). -/
def quotedPairState : CSVParserState :=
  { initState defaultOptions with
    inQuotes := true
    buffer := "\"\"".data }

/-- Specification-side restatement of the header/row mapping policy: bind
each header name, in order, to the field at the same position, the empty
string when the row is too short; positions beyond the header list never
appear.  Used only to compare `rowToObj` against the spec wording. -/
def rowToObjSpec : List String → Nat → List String → List (String × String)
  | [], _, _ => []
  | name :: names, i, row => (name, row.getD i "") :: rowToObjSpec names (i + 1) row

end Omnidata

/-! ## Supporting lemmas -/

namespace Omnidata

theorem resetRow_options (st : CSVParserState) : (resetRow st).options = st.options := rfl

theorem addError_options (msg : String) (st : CSVParserState) :
    (addError msg st).options = st.options := rfl

theorem endRow_options (st : CSVParserState) : (endRow st).options = st.options := by
  unfold endRow
  dsimp only
  split
  · rfl
  · split <;> rfl

theorem processCharacter_options (c : Char) (st : CSVParserState) :
    (processCharacter c st).options = st.options := by
  unfold processCharacter
  dsimp only
  split
  · split
    · rfl
    · split <;> rfl
  · split
    · split <;> rfl
    · split
      · rfl
      · split
        · rw [endRow_options]
          split <;> rfl
        · rfl

theorem processLoop_options (fuel : Nat) (st : CSVParserState) :
    (processLoop fuel st).options = st.options := by
  induction fuel generalizing st with
  | zero => rfl
  | succ fuel ih =>
      unfold processLoop
      split
      · rw [ih]
        exact processCharacter_options _ _
      · rfl

theorem processChunk_options (chunk : List Char) (st : CSVParserState) :
    (processChunk chunk st).options = st.options := by
  unfold processChunk
  dsimp only
  rw [processLoop_options]

theorem finalize_options (st : CSVParserState) : (finalize st).options = st.options := by
  unfold finalize
  dsimp only
  split
  · split
    · rw [addError_options, endRow_options]
    · rw [endRow_options]
  · split
    · rw [addError_options]
    · rfl

end Omnidata

namespace Omnidata

theorem objUpsert_of_fresh (k v : String) (l : List (String × String))
    (h : ∀ p ∈ l, p.1 ≠ k) : objUpsert k v l = l ++ [(k, v)] := by
  induction l with
  | nil => rfl
  | cons p rest ih =>
      obtain ⟨k1, v1⟩ := p
      have hk : ¬k1 = k := h (k1, v1) (List.mem_cons_self _ _)
      simp only [objUpsert, if_neg hk, List.cons_append]
      rw [ih (fun q hq => h q (List.mem_cons_of_mem _ hq))]

theorem rowToObjFrom_of_nodup (row : List String) :
    ∀ (names : List String) (i : Nat) (acc : List (String × String)),
      names.Nodup → (∀ p ∈ acc, p.1 ∉ names) →
      rowToObjFrom row names i acc = acc ++ rowToObjSpec names i row := by
  intro names
  induction names with
  | nil =>
      intro i acc _ _
      simp [rowToObjFrom, rowToObjSpec]
  | cons name names ih =>
      intro i acc hnd hdis
      have hfresh : ∀ p ∈ acc, p.1 ≠ name := by
        intro p hp he
        exact hdis p hp (he ▸ List.mem_cons_self _ _)
      have hnotmem : name ∉ names := (List.nodup_cons.mp hnd).1
      have hnd2 : names.Nodup := (List.nodup_cons.mp hnd).2
      have hdis2 : ∀ p ∈ acc ++ [(name, row.getD i "")], p.1 ∉ names := by
        intro p hp
        rcases List.mem_append.mp hp with h | h
        · exact fun hmem => hdis p h (List.mem_cons_of_mem _ hmem)
        · have : p = (name, row.getD i "") := by simpa using h
          rw [this]
          exact hnotmem
      unfold rowToObjFrom
      rw [objUpsert_of_fresh _ _ _ hfresh, ih (i + 1) _ hnd2 hdis2]
      simp [rowToObjSpec, List.append_assoc]

theorem parse_options (st : CSVParserState) (input : String) :
    (parse st input).2.options = st.options := by
  unfold parse
  dsimp only
  rw [finalize_options, processChunk_options]
  rfl

theorem parse_eq_of_same_options (st1 st2 : CSVParserState) (input : String)
    (h : st1.options = st2.options) : parse st1 input = parse st2 input := by
  unfold parse reset
  rw [h]

end Omnidata

/-! ## Structural lemmas about the state machine -/

namespace Omnidata

theorem endRow_inQuotes (st : CSVParserState) : (endRow st).inQuotes = st.inQuotes := by
  unfold endRow
  dsimp only
  split
  · rfl
  · split <;> rfl

theorem endRow_set_inQuotes (st : CSVParserState) (b : Bool) :
    endRow { st with inQuotes := b } = { endRow st with inQuotes := b } := by
  unfold endRow resetRow
  dsimp only
  by_cases hc : st.options.skipEmptyLines = true ∧
      (st.currentRow ++ [st.currentField]).length = 1 ∧
      (st.currentRow ++ [st.currentField]).getD 0 "" = ""
  · rw [if_pos hc, if_pos hc]
  · rw [if_neg hc, if_neg hc]
    cases st.options.headers <;> cases st.headers <;> rfl

theorem finalize_emittedRows (st : CSVParserState) :
    (finalize st).emittedRows =
      if st.currentField ≠ "" ∨ st.currentRow.length > 0 then (endRow st).emittedRows
      else st.emittedRows := by
  unfold finalize
  dsimp only
  by_cases hc : st.currentField ≠ "" ∨ st.currentRow.length > 0
  · rw [if_pos hc, if_pos hc]
    by_cases hq : (endRow st).inQuotes = true
    · rw [if_pos hq]
      rfl
    · rw [if_neg hq]
  · rw [if_neg hc, if_neg hc]
    by_cases hq : st.inQuotes = true
    · rw [if_pos hq]
      rfl
    · rw [if_neg hq]

end Omnidata

/-! ## The claims -/

namespace Omnidata

/-- C1 (chunk-invariance, violated by the code): the claim states that every
way of splitting an input into `write` chunks yields the same rows,
diagnostics and final row count as the one-shot `parse` of the whole string.
The escaped-quote lookahead, however, reads only the buffer of the current
`write`, and that buffer is cleared between writes — so a split placed
exactly between the escape character and the quote it escapes changes the
output.  The chunks `"a"` and `"b"` concatenate to the 6-character one-shot
input `"a""b"` (first conjunct); one-shot, that input parses to the single
row `[a"b]` with no diagnostics, but delivered as those two chunks — the
boundary falling between the two quotes of the `""` escape pair — the
session sees no successor for the first `"` of the pair, leaves quoted mode
there, and emits the row `[a"b"]` with two "Unexpected quote character"
diagnostics. -/
theorem c1_chunk_split_changes_output :
    "\"a\"".data ++ "\"b\"".data = "\"a\"\"b\"".data ∧
    (streamRun defaultOptions ["\"a\"\"b\"".data]).emittedRows =
      [(RowValue.arr ["a\"b"], 0)] ∧
    (streamRun defaultOptions ["\"a\"\"b\"".data]).errors = [] ∧
    (parse (initState defaultOptions) "\"a\"\"b\"").1.rows = [RowValue.arr ["a\"b"]] ∧
    (streamRun defaultOptions ["\"a\"".data, "\"b\"".data]).emittedRows =
      [(RowValue.arr ["a\"b\""], 0)] ∧
    (streamRun defaultOptions ["\"a\"".data, "\"b\"".data]).errors =
      [⟨1, 4, "Unexpected quote character"⟩, ⟨1, 6, "Unexpected quote character"⟩] ∧
    (streamRun defaultOptions ["\"a\"".data, "\"b\"".data]).emittedRows ≠
      (streamRun defaultOptions ["\"a\"\"b\"".data]).emittedRows :=
  ⟨rfl, rfl, rfl, rfl, rfl, rfl, by decide⟩

/-- C2: inside a quoted field, a character equal to the configured escape
character whose successor (one-character lookahead) equals the configured
quote character appends exactly one literal quote to the current field,
advances the column counter by 2, consumes both characters (the buffer index
skips the successor) and leaves the parser in quoted mode; in particular
`parse` of `"He said ""hi""",2` with quote=escape=`"` yields the single row
whose fields are `He said "hi"` and `2`, with no diagnostics. -/
theorem c2_escaped_quote (st : CSVParserState)
    (h1 : st.inQuotes = true)
    (h2 : st.buffer.get? (st.bufferIndex + 1) = some st.options.quote) :
    processCharacter st.options.escape st =
      { st with currentField := st.currentField.push st.options.quote
                currentColumn := st.currentColumn + 2
                bufferIndex := st.bufferIndex + 1 } ∧
    (processCharacter st.options.escape st).inQuotes = true ∧
    (parse (initState defaultOptions) "\"He said \"\"hi\"\"\",2").1 =
      { headers := Option.none, rows := [RowValue.arr ["He said \"hi\"", "2"]],
        errors := [] } := by
  have he : processCharacter st.options.escape st =
      { st with currentField := st.currentField.push st.options.quote
                currentColumn := st.currentColumn + 2
                bufferIndex := st.bufferIndex + 1 } := by
    unfold processCharacter
    dsimp only
    rw [if_pos h1, if_pos ⟨rfl, h2⟩]
  exact ⟨he, by rw [he]; exact h1, rfl⟩

/-- Witness for `c2_escaped_quote` at a concrete in-quotes state whose
buffer holds two quote characters. -/
theorem c2_escaped_quote_witness :
    quotedPairState.inQuotes = true ∧
    quotedPairState.buffer.get? (quotedPairState.bufferIndex + 1) =
      some quotedPairState.options.quote ∧
    (processCharacter quotedPairState.options.escape quotedPairState).inQuotes = true :=
  ⟨rfl, rfl, (c2_escaped_quote quotedPairState rfl rfl).2.1⟩

/-- C3 (counterexample): with an explicit header list, the header is NOT
resolved at session start.  On empty input — which produces no surviving
rows — `parse` reports no header, and an empty streaming session delivers no
header notification; this refutes the claim that `resolvedHeader` is set
immediately at session start and reported even for inputs with no surviving
rows. -/
theorem c3_counterexample :
    (parse (initState { headers := HeadersOption.explicitList ["a", "b"] }) "").1.headers
      = Option.none ∧
    (parse (initState { headers := HeadersOption.explicitList ["a", "b"] }) "").1.rows = [] ∧
    (streamRun { headers := HeadersOption.explicitList ["a", "b"] } []).emittedHeaders = [] ∧
    (streamRun { headers := HeadersOption.explicitList ["a", "b"] } []).headers = Option.none :=
  ⟨rfl, rfl, rfl, rfl⟩

/-- C3 (amended): with an explicit header list, `resolvedHeader` is set to
exactly that list at the first surviving row boundary (not at session
start), the header notification fires there, and that first surviving row —
and every later one — is emitted as a data row mapped through the provided
names, incrementing `rowIndex`; `parse` of `1,2` with explicit headers
`[a, b]` yields header `[a, b]` and the single data row `{a: 1, b: 2}`. -/
theorem c3_explicit_header_at_first_row (st : CSVParserState) (names : List String)
    (h1 : st.options.headers = HeadersOption.explicitList names)
    (h2 : st.headers = Option.none)
    (h3 : ¬(st.options.skipEmptyLines = true ∧
        (st.currentRow ++ [st.currentField]).length = 1 ∧
        (st.currentRow ++ [st.currentField]).getD 0 "" = "")) :
    (endRow st).headers = some names ∧
    (endRow st).emittedHeaders = st.emittedHeaders ++ [names] ∧
    (endRow st).emittedRows = st.emittedRows ++
      [(RowValue.obj (rowToObj names (st.currentRow ++ [st.currentField])), st.rowIndex)] ∧
    (endRow st).rowIndex = st.rowIndex + 1 ∧
    (parse (initState { headers := HeadersOption.explicitList ["a", "b"] }) "1,2").1 =
      { headers := some ["a", "b"],
        rows := [RowValue.obj [("a", "1"), ("b", "2")]], errors := [] } := by
  have he : endRow st = resetRow { st with
      currentRow := st.currentRow ++ [st.currentField]
      headers := some names
      emittedHeaders := st.emittedHeaders ++ [names]
      emittedRows := st.emittedRows ++
        [(RowValue.obj (rowToObj names (st.currentRow ++ [st.currentField])), st.rowIndex)]
      rowIndex := st.rowIndex + 1 } := by
    unfold endRow
    dsimp only
    rw [if_neg h3, h1, h2]
  rw [he]
  exact ⟨rfl, rfl, rfl, rfl, rfl⟩

/-- Witness for `c3_explicit_header_at_first_row` at a concrete state with
explicit headers `[a, b]` and a pending non-empty field. -/
theorem c3_explicit_header_at_first_row_witness :
    ({ initState { headers := HeadersOption.explicitList ["a", "b"] } with
        currentField := "x" } : CSVParserState).options.headers =
      HeadersOption.explicitList ["a", "b"] ∧
    ({ initState { headers := HeadersOption.explicitList ["a", "b"] } with
        currentField := "x" } : CSVParserState).headers = Option.none ∧
    ¬(({ initState { headers := HeadersOption.explicitList ["a", "b"] } with
        currentField := "x" } : CSVParserState).options.skipEmptyLines = true ∧
      (({ initState { headers := HeadersOption.explicitList ["a", "b"] } with
          currentField := "x" } : CSVParserState).currentRow ++
        [({ initState { headers := HeadersOption.explicitList ["a", "b"] } with
            currentField := "x" } : CSVParserState).currentField]).length = 1 ∧
      (({ initState { headers := HeadersOption.explicitList ["a", "b"] } with
          currentField := "x" } : CSVParserState).currentRow ++
        [({ initState { headers := HeadersOption.explicitList ["a", "b"] } with
            currentField := "x" } : CSVParserState).currentField]).getD 0 "" = "") ∧
    (endRow { initState { headers := HeadersOption.explicitList ["a", "b"] } with
        currentField := "x" }).headers = some ["a", "b"] :=
  ⟨rfl, rfl, by decide,
    (c3_explicit_header_at_first_row _ ["a", "b"] rfl rfl (by decide)).1⟩

/-- C4 (counterexample): an unterminated final row consisting solely of an
empty quoted field is NOT emitted.  With `skipEmptyLines := false`, `parse`
of `""` — a quote opened and properly closed (state leaves quoted mode, no
diagnostics) — emits no row, while the newline-terminated `""\n` emits the
row `[""]`; this refutes the claim that such a trailing row is closed as if
a line terminator had been seen. -/
theorem c4_counterexample :
    (parse (initState { skipEmptyLines := false }) "\"\"").1.rows = [] ∧
    (parse (initState { skipEmptyLines := false }) "\"\"").1.errors = [] ∧
    (parse (initState { skipEmptyLines := false }) "\"\"").2.inQuotes = false ∧
    (parse (initState { skipEmptyLines := false }) "\"\"\n").1.rows = [RowValue.arr [""]] :=
  ⟨rfl, rfl, rfl, rfl⟩

/-- C4 (amended): at end-of-input, `finalize` closes the pending field and
row exactly as a line terminator would whenever the current field text is
non-empty or the current row already contains at least one completed field
(the source tests JS truthiness of `currentField`, under which the empty
string does not count as a pending field).  A trailing row without a final
newline is therefore still emitted, including when its last — but not only —
field is an empty quoted field: `parse` of `a,""` yields the row `[a, ]`,
and `parse` of `a,b\nc,d` yields both rows. -/
theorem c4_finalize_flushes (st : CSVParserState)
    (h : st.currentField ≠ "" ∨ st.currentRow.length > 0) :
    (finalize st).emittedRows = (endRow st).emittedRows ∧
    (finalize st).rowIndex = (endRow st).rowIndex ∧
    (parse (initState defaultOptions) "a,\"\"").1.rows = [RowValue.arr ["a", ""]] ∧
    (parse (initState defaultOptions) "a,b\nc,d").1.rows =
      [RowValue.arr ["a", "b"], RowValue.arr ["c", "d"]] := by
  refine ⟨?_, ?_, rfl, rfl⟩
  · rw [finalize_emittedRows, if_pos h]
  · unfold finalize
    dsimp only
    rw [if_pos h]
    by_cases hq : (endRow st).inQuotes = true
    · rw [if_pos hq]
      rfl
    · rw [if_neg hq]

/-- Witness for `c4_finalize_flushes` at a concrete state with a pending
non-empty field. -/
theorem c4_finalize_flushes_witness :
    (({ initState defaultOptions with currentField := "x" } : CSVParserState).currentField ≠ "" ∨
      ({ initState defaultOptions with currentField := "x" } : CSVParserState).currentRow.length > 0) ∧
    (finalize { initState defaultOptions with currentField := "x" }).emittedRows =
      (endRow { initState defaultOptions with currentField := "x" }).emittedRows :=
  ⟨Or.inl (by decide),
    (c4_finalize_flushes { initState defaultOptions with currentField := "x" }
      (Or.inl (by decide))).1⟩

/-- C5: outside quoted mode, a quote character arriving while the current
field already has accumulated content records the diagnostic "Unexpected
quote character" at the current line/column (the detection position),
appends the quote character literally and does not enter quoted mode; when
the current field is empty, quoted mode is entered and the character is
consumed without being appended.  In particular `parse` of `ab"c,d` yields
the fields `ab"c` and `d` together with exactly that diagnostic at line 1,
column 3. -/
theorem c5_unexpected_quote (st : CSVParserState) (hq : st.inQuotes = false) :
    (st.currentField.length > 0 →
      processCharacter st.options.quote st =
        { st with
          errors := st.errors ++ [⟨st.currentLine, st.currentColumn, "Unexpected quote character"⟩]
          currentField := st.currentField.push st.options.quote
          currentColumn := st.currentColumn + 1 }) ∧
    (st.currentField.length = 0 →
      processCharacter st.options.quote st =
        { st with inQuotes := true, currentColumn := st.currentColumn + 1 }) ∧
    (parse (initState defaultOptions) "ab\"c,d").1 =
      { headers := Option.none, rows := [RowValue.arr ["ab\"c", "d"]],
        errors := [⟨1, 3, "Unexpected quote character"⟩] } := by
  refine ⟨?_, ?_, rfl⟩
  · intro hlen
    unfold processCharacter
    dsimp only
    rw [if_neg (by simp [hq]), if_pos rfl, if_pos hlen]
    rfl
  · intro hlen
    unfold processCharacter
    dsimp only
    rw [if_neg (by simp [hq]), if_pos rfl, if_neg (by simp [hlen])]

/-- Witness for `c5_unexpected_quote` at a concrete state whose current
field already holds `ab`. -/
theorem c5_unexpected_quote_witness :
    ({ initState defaultOptions with currentField := "ab" } : CSVParserState).inQuotes = false ∧
    ({ initState defaultOptions with currentField := "ab" } : CSVParserState).currentField.length > 0 ∧
    (processCharacter
        ({ initState defaultOptions with currentField := "ab" } : CSVParserState).options.quote
        { initState defaultOptions with currentField := "ab" }).errors =
      [⟨1, 1, "Unexpected quote character"⟩] :=
  ⟨rfl, by decide, by
    have h := (c5_unexpected_quote { initState defaultOptions with currentField := "ab" }
      rfl).1 (by decide)
    rw [h]
    rfl⟩

/-- C6: when end-of-input is reached while still inside a quoted field,
`finalize` appends the diagnostic "Unclosed quoted field" as the last
diagnostic, the emission of the accumulated partial row is unaffected by the
quoted state (the same rows are emitted as with the quote closed), and the
end notification always carries the final row count together with the full
diagnostic list; `parse` of `"abc` still completes, emitting the row `[abc]`
and that single diagnostic, and the streaming session delivers the end
notification `(1, [the diagnostic])`. -/
theorem c6_unclosed_quote (st : CSVParserState) (h : st.inQuotes = true) :
    ((finalize st).errors.map CSVError.message).getLast? = some "Unclosed quoted field" ∧
    (finalize st).emittedRows = (finalize { st with inQuotes := false }).emittedRows ∧
    (finalize st).endEvent = some ((finalize st).rowIndex, (finalize st).errors) ∧
    (parse (initState defaultOptions) "\"abc").1 =
      { headers := Option.none, rows := [RowValue.arr ["abc"]],
        errors := [⟨2, 1, "Unclosed quoted field"⟩] } ∧
    (streamRun defaultOptions ["\"abc".data]).endEvent =
      some (1, [⟨2, 1, "Unclosed quoted field"⟩]) := by
  refine ⟨?_, ?_, rfl, rfl, rfl⟩
  · unfold finalize
    dsimp only
    by_cases hc : st.currentField ≠ "" ∨ st.currentRow.length > 0
    · rw [if_pos hc, if_pos (show (endRow st).inQuotes = true from (endRow_inQuotes st).trans h)]
      dsimp only [addError]
      simp
    · rw [if_neg hc, if_pos h]
      dsimp only [addError]
      simp
  · rw [finalize_emittedRows, finalize_emittedRows]
    dsimp only
    by_cases hc : st.currentField ≠ "" ∨ st.currentRow.length > 0
    · rw [if_pos hc, if_pos hc, endRow_set_inQuotes st false]
    · rw [if_neg hc, if_neg hc]

/-- Witness for `c6_unclosed_quote` at a concrete freshly-reset state placed
inside a quoted field. -/
theorem c6_unclosed_quote_witness :
    ({ initState defaultOptions with inQuotes := true } : CSVParserState).inQuotes = true ∧
    ((finalize { initState defaultOptions with inQuotes := true }).errors.map
      CSVError.message).getLast? = some "Unclosed quoted field" :=
  ⟨rfl, (c6_unclosed_quote { initState defaultOptions with inQuotes := true } rfl).1⟩

/-- C7: with `headerMode = firstRow`, the raw field values of the first
surviving row become `resolvedHeader` and the header notification fires,
while that row is not emitted as a data row and `rowIndex` does not
increment; `parse` of `a,b,c\n1,2,3` with first-row headers yields header
`[a, b, c]`, exactly one data row `{a: 1, b: 2, c: 3}`, and zero
diagnostics. -/
theorem c7_first_row_header (st : CSVParserState)
    (h1 : st.options.headers = HeadersOption.firstRow)
    (h2 : st.headers = Option.none)
    (h3 : ¬(st.options.skipEmptyLines = true ∧
        (st.currentRow ++ [st.currentField]).length = 1 ∧
        (st.currentRow ++ [st.currentField]).getD 0 "" = "")) :
    (endRow st).headers = some (st.currentRow ++ [st.currentField]) ∧
    (endRow st).emittedHeaders = st.emittedHeaders ++ [st.currentRow ++ [st.currentField]] ∧
    (endRow st).emittedRows = st.emittedRows ∧
    (endRow st).rowIndex = st.rowIndex ∧
    (parse (initState { headers := HeadersOption.firstRow }) "a,b,c\n1,2,3").1 =
      { headers := some ["a", "b", "c"],
        rows := [RowValue.obj [("a", "1"), ("b", "2"), ("c", "3")]],
        errors := [] } := by
  have he : endRow st = resetRow { st with
      currentRow := st.currentRow ++ [st.currentField]
      headers := some (st.currentRow ++ [st.currentField])
      emittedHeaders := st.emittedHeaders ++ [st.currentRow ++ [st.currentField]] } := by
    unfold endRow
    dsimp only
    rw [if_neg h3, h1, h2]
  rw [he]
  exact ⟨rfl, rfl, rfl, rfl, rfl⟩

/-- Witness for `c7_first_row_header` at a concrete first-row-header state
with a pending non-empty field. -/
theorem c7_first_row_header_witness :
    ({ initState { headers := HeadersOption.firstRow } with
        currentField := "x" } : CSVParserState).options.headers = HeadersOption.firstRow ∧
    ({ initState { headers := HeadersOption.firstRow } with
        currentField := "x" } : CSVParserState).headers = Option.none ∧
    ¬(({ initState { headers := HeadersOption.firstRow } with
        currentField := "x" } : CSVParserState).options.skipEmptyLines = true ∧
      (({ initState { headers := HeadersOption.firstRow } with
          currentField := "x" } : CSVParserState).currentRow ++
        [({ initState { headers := HeadersOption.firstRow } with
            currentField := "x" } : CSVParserState).currentField]).length = 1 ∧
      (({ initState { headers := HeadersOption.firstRow } with
          currentField := "x" } : CSVParserState).currentRow ++
        [({ initState { headers := HeadersOption.firstRow } with
            currentField := "x" } : CSVParserState).currentField]).getD 0 "" = "") ∧
    (endRow { initState { headers := HeadersOption.firstRow } with
        currentField := "x" }).headers = some ["x"] :=
  ⟨rfl, rfl, by decide,
    (c7_first_row_header { initState { headers := HeadersOption.firstRow } with
      currentField := "x" } rfl rfl (by decide)).1⟩

/-- C8: for a duplicate-free resolved header, the mapping view binds each
header name, in order, to the field value at the same position —
`rowToObj` agrees with the positional specification `rowToObjSpec` — so
missing trailing fields are bound to the empty string and extra trailing
fields are silently dropped; header `[a, b, c]` maps row `[1, 2]` to
`{a: 1, b: 2, c: }` and row `[1, 2, 3, 4]` to `{a: 1, b: 2, c: 3}`. -/
theorem c8_header_row_mapping (headers row : List String) (h : headers.Nodup) :
    rowToObj headers row = rowToObjSpec headers 0 row ∧
    rowToObj ["a", "b", "c"] ["1", "2"] = [("a", "1"), ("b", "2"), ("c", "")] ∧
    rowToObj ["a", "b", "c"] ["1", "2", "3", "4"] =
      [("a", "1"), ("b", "2"), ("c", "3")] := by
  refine ⟨?_, rfl, rfl⟩
  have hmain := rowToObjFrom_of_nodup row headers 0 [] h
    (fun p hp => absurd hp (List.not_mem_nil p))
  simpa [rowToObj] using hmain

/-- Witness for `c8_header_row_mapping` at the concrete header `[a, b, c]`
and row `[1, 2]`. -/
theorem c8_header_row_mapping_witness :
    (["a", "b", "c"] : List String).Nodup ∧
    rowToObj ["a", "b", "c"] ["1", "2"] = rowToObjSpec ["a", "b", "c"] 0 ["1", "2"] :=
  ⟨by decide, (c8_header_row_mapping ["a", "b", "c"] ["1", "2"] (by decide)).1⟩

/-- C9: a completed row consisting of exactly one field whose text is empty
is an empty line; with `skipEmptyLines = true` it is discarded — no row
emission, no `rowIndex` increment, no header resolution and no header
notification — while the line counter still advances past it.  `parse` of
`a,b\n\nc,d` yields exactly two rows with skipping on, and emits the middle
row `[""]` with skipping off. -/
theorem c9_empty_line_skipped (st : CSVParserState)
    (h1 : st.options.skipEmptyLines = true)
    (h2 : st.currentRow = []) (h3 : st.currentField = "") :
    (endRow st).emittedRows = st.emittedRows ∧
    (endRow st).rowIndex = st.rowIndex ∧
    (endRow st).headers = st.headers ∧
    (endRow st).emittedHeaders = st.emittedHeaders ∧
    (endRow st).currentLine = st.currentLine + 1 ∧
    (parse (initState defaultOptions) "a,b\n\nc,d").1.rows =
      [RowValue.arr ["a", "b"], RowValue.arr ["c", "d"]] ∧
    (parse (initState { skipEmptyLines := false }) "a,b\n\nc,d").1.rows =
      [RowValue.arr ["a", "b"], RowValue.arr [""], RowValue.arr ["c", "d"]] := by
  have hcond : st.options.skipEmptyLines = true ∧
      (st.currentRow ++ [st.currentField]).length = 1 ∧
      (st.currentRow ++ [st.currentField]).getD 0 "" = "" := by
    rw [h2, h3]
    exact ⟨h1, rfl, rfl⟩
  have he : endRow st = resetRow { st with currentRow := st.currentRow ++ [st.currentField] } := by
    unfold endRow
    dsimp only
    rw [if_pos hcond]
  rw [he]
  exact ⟨rfl, rfl, rfl, rfl, rfl, rfl, rfl⟩

/-- Witness for `c9_empty_line_skipped` at the freshly constructed default
state (empty current row and empty current field). -/
theorem c9_empty_line_skipped_witness :
    (initState defaultOptions).options.skipEmptyLines = true ∧
    (initState defaultOptions).currentRow = [] ∧
    (initState defaultOptions).currentField = "" ∧
    (endRow (initState defaultOptions)).currentLine =
      (initState defaultOptions).currentLine + 1 :=
  ⟨rfl, rfl, rfl,
    (c9_empty_line_skipped (initState defaultOptions) rfl rfl rfl).2.2.2.2.1⟩

/-- C10: `parse()` isolates sessions on a reused parser instance — it resets
every mutable session field to the freshly-constructed state before
processing, so calling `parse s1` and then `parse s2` on the same instance
returns for the second call exactly the result (headers, rows, errors, and
even the final instance state) of `parse s2` on a freshly constructed parser
with the same configuration. -/
theorem c10_parse_isolates_sessions (options : CSVParseOptions) (s1 s2 : String) :
    parse ((parse (initState options) s1).2) s2 = parse (initState options) s2 :=
  parse_eq_of_same_options _ _ _ (parse_options _ _)

end Omnidata
